import Mathlib

/-!
# Verification of the voxly task pipeline and resilience primitives

Shallow embedding of the voxly repository's core components:

* the resilience primitives (`internal/resilience`: circuit breaker,
  exponential-backoff retry, token-bucket rate limiter),
* the task model (`pkg/model/task.go`),
* the SpeechKit result text extraction (`internal/speechkit/client.go`),
* the worker pipeline (`internal/worker/processor.go`),
* the ingress handler (`internal/bot/handlers.go`) against the unique
  index declared in `migrations/001_create_initial_tables.up.sql`.

Go wall-clock time (`time.Time` / `time.Duration`) is modelled by `Nat`
instants and durations; each function that calls `time.Now()` or observes
elapsed time takes the current instant as an explicit argument.  Go errors
are modelled by `Option`/dedicated result types.  Mutex acquisition is
dropped: every modelled operation is one atomic critical section, which is
exactly the serialised behaviour the locks enforce.
-/

namespace Voxly

/-! ## Circuit breaker (`internal/resilience`, `CircuitBreaker`)

`State` mirrors the Go `State` enumeration (`StateClosed`, `StateOpen`,
`StateHalfOpen`).  `failures` is a `uint32` counter in Go; the scenarios
proved here never approach `2^32`, so it is modelled by `Nat`.
-/

inductive CBState where
  | stateClosed
  | stateOpen
  | stateHalfOpen
deriving DecidableEq, Repr

/-- The circuit-breaker record: `maxFailures`, `timeout` (the cooldown),
current `state`, consecutive `failures` count and the instant of the last
failure, as in the Go struct `CircuitBreaker`. -/
structure CircuitBreaker where
  maxFailures : Nat
  timeout : Nat
  state : CBState
  failures : Nat
  lastFailTime : Nat
deriving DecidableEq, Repr

/-- `NewCircuitBreaker(maxFailures, timeout)`: starts Closed with zero
failures (Go zero value for `lastFailTime` is the zero instant). -/
def NewCircuitBreaker (maxFailures timeout : Nat) : CircuitBreaker :=
  { maxFailures := maxFailures
    timeout := timeout
    state := CBState.stateClosed
    failures := 0
    lastFailTime := 0 }

/-- Result of one `Execute` call: the distinct `ErrCircuitOpen` error, the
protected function's own error, or success. -/
inductive CBResult where
  | circuitOpen
  | fnErr
  | ok
deriving DecidableEq, Repr

/-- Outcome of `Execute`: the returned error, whether the protected
function was invoked at all, and the breaker's state afterwards. -/
structure ExecOutcome where
  result : CBResult
  invoked : Bool
  cb : CircuitBreaker
deriving DecidableEq, Repr

/-- The second half of `CircuitBreaker.Execute` (after `fn()` returns):
on error increment `failures`, stamp `lastFailTime`, open when the
threshold is reached; on success close a half-open breaker and zero the
failure count. -/
def CircuitBreaker.afterCall (cb : CircuitBreaker) (now : Nat) (fnOk : Bool) :
    CBResult × CircuitBreaker :=
  if fnOk then
    (CBResult.ok,
      { cb with
        state := if cb.state = CBState.stateHalfOpen then CBState.stateClosed else cb.state
        failures := 0 })
  else
    (CBResult.fnErr,
      { cb with
        failures := cb.failures + 1
        lastFailTime := now
        state :=
          if cb.maxFailures ≤ cb.failures + 1 then CBState.stateOpen else cb.state })

/-- `CircuitBreaker.Execute(fn)` at instant `now`, where `fnOk` is the
outcome `fn` would produce if invoked.  While Open: if strictly more than
`timeout` has elapsed since `lastFailTime` the breaker moves to Half-Open
with `failures = 0` and the call proceeds; otherwise it fails fast with
`ErrCircuitOpen` without invoking `fn`. -/
def CircuitBreaker.execute (cb : CircuitBreaker) (now : Nat) (fnOk : Bool) :
    ExecOutcome :=
  if cb.state = CBState.stateOpen then
    if cb.timeout < now - cb.lastFailTime then
      let cb1 := { cb with state := CBState.stateHalfOpen, failures := 0 }
      let r := cb1.afterCall now fnOk
      { result := r.1, invoked := true, cb := r.2 }
    else
      { result := CBResult.circuitOpen, invoked := false, cb := cb }
  else
    let r := cb.afterCall now fnOk
    { result := r.1, invoked := true, cb := r.2 }

/-- `GetState`. -/
def CircuitBreaker.GetState (cb : CircuitBreaker) : CBState := cb.state

/-- Feeding a sequence of failing calls (at the given instants) through
`Execute`. -/
def feedFailures (cb : CircuitBreaker) (times : List Nat) : CircuitBreaker :=
  times.foldl (fun c t => (c.execute t false).cb) cb

/-! ## Rate limiter (`internal/resilience`, `RateLimiter`) -/

/-- The token-bucket record: `rate` (capacity), `interval`, current
`tokens` and the `lastTime` of the last replenishment, as in the Go struct
`RateLimiter`. -/
structure RateLimiter where
  rate : Nat
  interval : Nat
  tokens : Nat
  lastTime : Nat
deriving DecidableEq, Repr

/-- `NewRateLimiter(rate, interval)` created at instant `now`: bucket
starts full. -/
def NewRateLimiter (rate interval now : Nat) : RateLimiter :=
  { rate := rate, interval := interval, tokens := rate, lastTime := now }

/-- `RateLimiter.Allow()` at instant `now`: lazily add
`elapsed / interval` tokens (integer division, as the Go
`time.Duration` division does), cap at `rate`, stamp `lastTime` only when
at least one token was added, then try to take a token. -/
def RateLimiter.allow (rl : RateLimiter) (now : Nat) : Bool × RateLimiter :=
  let elapsed := now - rl.lastTime
  let tokensToAdd := elapsed / rl.interval
  let rl1 :=
    if 0 < tokensToAdd then
      let t := rl.tokens + tokensToAdd
      { rl with tokens := if rl.rate < t then rl.rate else t, lastTime := now }
    else rl
  if 0 < rl1.tokens then
    (true, { rl1 with tokens := rl1.tokens - 1 })
  else
    (false, rl1)

/-! ## Retry with exponential backoff (`internal/resilience`)

`RetryWithExponentialBackoff(ctx, config, fn)` is modelled with explicit
time: `cancelAt` is the instant at which the context's cancellation
signal fires (`none` for a context that is never cancelled); the
non-blocking `select` on `ctx.Done()` at the top of each attempt observes
it exactly when the current instant has reached `cancelAt`.  `fn` is
modelled as a function from the number of invocations made so far to its
outcome (`none` = success, `some e` = error `e`), and each invocation
takes no time.  `time.Sleep(interval)` advances the clock by the full
`interval` unconditionally: a Go `time.Sleep` does not observe the
context.  Go's `Multiplier` is a `float64`; the interval update
`interval = Duration(float64(interval) * Multiplier)` is modelled by the
abstract growth function `grow`, after which the cap at `MaxInterval` is
applied exactly as in the code.  The claims proved below never inspect
the numeric value of the backoff intervals beyond their duration being
the amount slept. -/

/-- `RetryConfig` (`MaxAttempts` is a Go `int`, so `Int` here). -/
structure RetryConfig where
  MaxAttempts : Int
  InitialInterval : Nat
  MaxInterval : Nat
  grow : Nat → Nat

/-- What `RetryWithExponentialBackoff` returns: `nil`, `ctx.Err()`, or the
last error from `fn`. -/
inductive RetryResult (E : Type) where
  | ok
  | cancelled
  | failed : E → RetryResult E
deriving DecidableEq, Repr

/-- Observable state of a retry run: the current instant and the number of
invocations of `fn` made so far. -/
structure RetryState where
  time : Nat
  calls : Nat
deriving DecidableEq, Repr

/-- The non-blocking `select { case <-ctx.Done(): ... default: }` check:
the signal is observed exactly when `cancelAt` has been reached. -/
def ctxDone (cancelAt : Option Nat) (now : Nat) : Bool :=
  match cancelAt with
  | none => false
  | some c => c ≤ now

/-- The loop body of `RetryWithExponentialBackoff`, with the remaining
number of loop iterations (`config.MaxAttempts - attempt`) as fuel.
Mirrors the Go loop: check `ctx.Done()` non-blockingly; run `fn`; return
on success; if another attempt remains, sleep the current interval (the
clock advances by the whole interval) and grow it, capped at
`MaxInterval`; after the loop, return `lastErr` (`ok` when it is still
`nil`). -/
def retryAux {E : Type} (cfg : RetryConfig) (cancelAt : Option Nat)
    (fn : Nat → Option E) :
    Nat → Nat → RetryState → Option E → RetryResult E × RetryState
  | 0, _, st, lastErr =>
    (match lastErr with
     | none => RetryResult.ok
     | some e => RetryResult.failed e, st)
  | remaining + 1, interval, st, _ =>
    if ctxDone cancelAt st.time then
      (RetryResult.cancelled, st)
    else
      match fn st.calls with
      | none => (RetryResult.ok, { st with calls := st.calls + 1 })
      | some e =>
        let st1 : RetryState := { st with calls := st.calls + 1 }
        if 0 < remaining then
          let iv1 := cfg.grow interval
          let iv2 := if cfg.MaxInterval < iv1 then cfg.MaxInterval else iv1
          retryAux cfg cancelAt fn remaining iv2
            { st1 with time := st1.time + interval } (some e)
        else
          retryAux cfg cancelAt fn remaining interval st1 (some e)

/-- `RetryWithExponentialBackoff(ctx, config, fn)`: the loop
`for attempt := 0; attempt < config.MaxAttempts; attempt++` runs
`config.MaxAttempts` iterations (none when `MaxAttempts ≤ 0`, as
`Int.toNat` then yields `0`), starting at instant `0` with `lastErr = nil`
and `interval = InitialInterval`. -/
def RetryWithExponentialBackoff {E : Type} (cfg : RetryConfig)
    (cancelAt : Option Nat) (fn : Nat → Option E) : RetryResult E × RetryState :=
  retryAux cfg cancelAt fn cfg.MaxAttempts.toNat cfg.InitialInterval
    { time := 0, calls := 0 } none

/-! ## Task model (`pkg/model/task.go`)

The `Meta` JSONB blob and the transcript's raw JSON response carry no
behaviour and are omitted; timestamps are `Nat` instants. -/

inductive TaskStatus where
  | queued
  | inProgress
  | done
  | failed
deriving DecidableEq, Repr

/-- The `Task` row. -/
structure Task where
  id : String
  telegramMessageID : Int
  chatID : Int
  fileID : String
  status : TaskStatus
  operationID : Option String
  attempts : Nat
  errorText : Option String
  createdAt : Nat
  updatedAt : Nat
deriving DecidableEq, Repr

/-- The `Transcript` row (raw JSON response omitted). -/
structure Transcript where
  id : String
  taskID : String
  text : String
  createdAt : Nat
deriving DecidableEq, Repr

/-- `Task.SetError`: status Failed, record the error text, stamp
`UpdatedAt` with the current instant. -/
def Task.SetError (t : Task) (errorText : String) (now : Nat) : Task :=
  { t with
    status := TaskStatus.failed
    errorText := some errorText
    updatedAt := now }

/-- `Task.IncrementAttempts`. -/
def Task.IncrementAttempts (t : Task) : Task :=
  { t with attempts := t.attempts + 1 }

/-- `Task.SetCompleted`: status Done, stamp `UpdatedAt`. -/
def Task.SetCompleted (t : Task) (now : Nat) : Task :=
  { t with status := TaskStatus.done, updatedAt := now }

/-- `Task.SetInProgress(operationID)`: status InProgress, overwrite
`OperationID` with a pointer to the given string, stamp `UpdatedAt`. -/
def Task.SetInProgress (t : Task) (operationID : String) (now : Nat) : Task :=
  { t with
    status := TaskStatus.inProgress
    operationID := some operationID
    updatedAt := now }

/-! ## Recognition result (`internal/speechkit/client.go`) -/

/-- One recognition variant of a chunk. -/
structure Alternative where
  text : String
deriving DecidableEq, Repr

/-- One recognised segment. -/
structure Chunk where
  alternatives : List Alternative
deriving DecidableEq, Repr

/-- The final recognition result. -/
structure RecognitionResult where
  chunks : List Chunk
deriving DecidableEq, Repr

/-- `RecognitionResult.GetFullText`: for each chunk in order, for each of
its alternatives in order, append the alternative's text followed by a
single space. -/
def RecognitionResult.GetFullText (r : RecognitionResult) : String :=
  r.chunks.foldl
    (fun text chunk =>
      chunk.alternatives.foldl (fun t alt => t ++ alt.text ++ " ") text)
    ""

/-! ## Pipeline orchestrator (`internal/worker/processor.go`)

`Processor.ProcessTask` is modelled as a pure function over an
environment `ProcEnv` fixing the outcome of each external collaborator
call (Telegram download, S3 upload, SpeechKit start/wait, transcript
insert, user notification) and over the database state for the task the
queue message references.  Failures of `UpdateTask` and
`CreateTranscript` are only logged in the Go code, so in the model they
leave the stored state unchanged and processing continues.  Every
`time.Now()` of the cycle is modelled by the single instant `now`. -/

/-- Outcomes of the external collaborator calls made during one cycle. -/
structure ProcEnv where
  dbUpdateOk : Bool
  downloadOk : Bool
  uploadOk : Bool
  startResult : Option String
  waitResult : Option RecognitionResult
  createTranscriptOk : Bool
  sendOk : Bool
  newTranscriptID : String
deriving DecidableEq, Repr

/-- Stored state: the task row the message references (if any) and the
transcript rows for it. -/
structure DBState where
  task : Option Task
  transcripts : List Transcript
deriving DecidableEq, Repr

/-- `UpdateTask`: replaces the stored row; a failure is only logged by the
callers, so it leaves the store unchanged. -/
def updateTask (env : ProcEnv) (db : DBState) (t : Task) : DBState :=
  if env.dbUpdateOk then { db with task := some t } else db

/-- The error `ProcessTask` returns, by failing step. -/
inductive ProcError where
  | taskNotFound
  | downloadFailed
  | uploadFailed
  | startFailed
  | waitFailed
  | noTextRecognized
deriving DecidableEq, Repr

/-- Observable outcome of one processing cycle: the returned error
(`none` = `nil`), the stored state afterwards, whether the terminal
failure notification was sent, and whether the transcript text was
delivered to the user. -/
structure ProcOutcome where
  result : Option ProcError
  db : DBState
  failureNotified : Bool
  resultDelivered : Bool
deriving DecidableEq, Repr

/-- Result of `Processor.handleTaskError`. -/
structure HandleErrOut where
  task : Task
  db : DBState
  notified : Bool
deriving DecidableEq, Repr

/-- `Processor.handleTaskError`: `SetError`, `IncrementAttempts`,
`UpdateTask` (failure logged), then notify the originator exactly when the
incremented `Attempts` has reached `3`. -/
def handleTaskError (env : ProcEnv) (db : DBState) (task : Task)
    (errorMsg : String) (now : Nat) : HandleErrOut :=
  let t1 := ((task.SetError errorMsg now).IncrementAttempts)
  { task := t1
    db := updateTask env db t1
    notified := 3 ≤ t1.attempts }

/-- `Processor.ProcessTask` on the message's task: load the row (a missing
row aborts the cycle with an error and no store mutation); mark
InProgress with an empty operation id; download from Telegram; upload to
S3; start recognition and persist the operation id; wait for the result;
an empty extracted text is a failure; persist the transcript (failure
only logged); mark Done; deliver the text (failure only logged).  Every
step failure among download/upload/start/wait/empty-text goes through
`handleTaskError` and returns that step's error. -/
def ProcessTask (env : ProcEnv) (db : DBState) (now : Nat) : ProcOutcome :=
  match db.task with
  | none =>
    { result := some ProcError.taskNotFound
      db := db
      failureNotified := false
      resultDelivered := false }
  | some task0 =>
    let task1 := task0.SetInProgress "" now
    let db1 := updateTask env db task1
    if env.downloadOk = false then
      let h := handleTaskError env db1 task1 "Failed to download file" now
      { result := some ProcError.downloadFailed
        db := h.db
        failureNotified := h.notified
        resultDelivered := false }
    else if env.uploadOk = false then
      let h := handleTaskError env db1 task1 "Failed to upload to S3" now
      { result := some ProcError.uploadFailed
        db := h.db
        failureNotified := h.notified
        resultDelivered := false }
    else
      match env.startResult with
      | none =>
        let h := handleTaskError env db1 task1 "Failed to start recognition" now
        { result := some ProcError.startFailed
          db := h.db
          failureNotified := h.notified
          resultDelivered := false }
      | some operationID =>
        let task2 := { task1 with operationID := some operationID }
        let db2 := updateTask env db1 task2
        match env.waitResult with
        | none =>
          let h := handleTaskError env db2 task2 "Recognition failed" now
          { result := some ProcError.waitFailed
            db := h.db
            failureNotified := h.notified
            resultDelivered := false }
        | some result =>
          let recognizedText := result.GetFullText
          if recognizedText = "" then
            let h := handleTaskError env db2 task2 "No text recognized" now
            { result := some ProcError.noTextRecognized
              db := h.db
              failureNotified := h.notified
              resultDelivered := false }
          else
            let db3 :=
              if env.createTranscriptOk then
                { db2 with
                  transcripts := db2.transcripts ++
                    [{ id := env.newTranscriptID
                       taskID := task2.id
                       text := recognizedText
                       createdAt := now }] }
              else db2
            let task3 := task2.SetCompleted now
            let db4 := updateTask env db3 task3
            { result := none
              db := db4
              failureNotified := false
              resultDelivered := env.sendOk }

/-! ## Ingress (`internal/bot/handlers.go` against
`migrations/001_create_initial_tables.up.sql`)

`handleVoice` builds a fresh `queued` Task for the message's
`(chat_id, telegram_message_id)` pair and inserts it with `CreateTask`.
The insert runs against the `tasks` table, on which the migration
declares `CREATE UNIQUE INDEX idx_tasks_chat_message ON tasks
(chat_id, telegram_message_id)`: an insert whose pair already has a row
fails and adds nothing, which is the standard semantics of a Postgres
unique index.  On a failed insert `handleVoice` replies with an error and
returns without publishing; the queue publish itself does not touch the
table and is omitted. -/

/-- Whether the `tasks` table already holds a row with the pair. -/
def pairTaken (tasks : List Task) (chatID telegramMessageID : Int) : Bool :=
  tasks.any fun t =>
    t.chatID == chatID && t.telegramMessageID == telegramMessageID

/-- `CreateTask` (the `INSERT INTO tasks ...` of
`PostgresStorage.CreateTask`) under the unique index
`idx_tasks_chat_message`: fails (returning `none`) when the pair is
taken, otherwise appends the row. -/
def CreateTask (tasks : List Task) (t : Task) : Option (List Task) :=
  if pairTaken tasks t.chatID t.telegramMessageID then none
  else some (tasks ++ [t])

/-- A voice message as seen by `handleVoice`. -/
structure VoiceMsg where
  messageID : Int
  chatID : Int
  fileID : String
deriving DecidableEq, Repr

/-- `Bot.handleVoice` on an active chat: build the fresh `queued` Task
(fresh uuid `newID`, zero attempts, no operation id, no error text) and
insert it; on insert failure reply with an error and create nothing.
Returns the table afterwards and whether the task was created (and hence
published). -/
def handleVoice (tasks : List Task) (newID : String) (msg : VoiceMsg)
    (now : Nat) : List Task × Bool :=
  let task : Task :=
    { id := newID
      telegramMessageID := msg.messageID
      chatID := msg.chatID
      fileID := msg.fileID
      status := TaskStatus.queued
      operationID := none
      attempts := 0
      errorText := none
      createdAt := now
      updatedAt := now }
  match CreateTask tasks task with
  | none => (tasks, false)
  | some tasks1 => (tasks1, true)

/-- Number of rows in the table with the given
`(chat_id, telegram_message_id)` pair. -/
def pairCount (tasks : List Task) (chatID telegramMessageID : Int) : Nat :=
  (tasks.filter fun t =>
    t.chatID == chatID && t.telegramMessageID == telegramMessageID).length

/-! ## Concrete fixtures used by the theorems below -/

/-- A fresh breaker with `maxFailures = 2`, cooldown `10`. -/
def cbFresh : CircuitBreaker := NewCircuitBreaker 2 10

/-- `cbFresh` after failing calls at instants `0` and `1`: it is Open with
`failures = 2` and `lastFailTime = 1`. -/
def cbOpened : CircuitBreaker := ((cbFresh.execute 0 false).cb.execute 1 false).cb

/-- The trial call at instant `20` (cooldown elapsed), whose protected
function fails. -/
def cbFailedTrial : ExecOutcome := cbOpened.execute 20 false

/-- A bucket with capacity `2` and interval `10`, created at instant `0`. -/
def rlFresh : RateLimiter := NewRateLimiter 2 10 0

/-- `rlFresh` drained by two successful acquisitions at instant `0`. -/
def rlDrained : RateLimiter := ((rlFresh.allow 0).2.allow 0).2

/-- A retry configuration with three attempts and a 10-unit initial
backoff (doubling, capped at 100). -/
def cfgBackoff : RetryConfig :=
  { MaxAttempts := 3, InitialInterval := 10, MaxInterval := 100
    grow := fun n => n * 2 }

/-- A retry configuration whose attempt budget is exhausted before it
starts. -/
def cfgNoAttempts : RetryConfig :=
  { MaxAttempts := 0, InitialInterval := 1, MaxInterval := 30
    grow := fun n => n * 2 }

/-- An operation that always fails. -/
def alwaysFails : Nat → Option Unit := fun _ => some ()

/-- An operation that fails on its first `N` invocations (the error is the
invocation index) and succeeds from invocation `N` on. -/
def failsThenSucceeds (N : Nat) : Nat → Option Nat :=
  fun k => if k < N then some k else none

/-- A queued task with no attempts yet. -/
def taskQueued : Task :=
  { id := "task-1"
    telegramMessageID := 42
    chatID := 7
    fileID := "file-1"
    status := TaskStatus.queued
    operationID := none
    attempts := 0
    errorText := none
    createdAt := 0
    updatedAt := 0 }

/-- A recognition result with the two segments `["hello"]` and
`["world"]`, one alternative each. -/
def resHelloWorld : RecognitionResult :=
  { chunks := [{ alternatives := [{ text := "hello" }] },
               { alternatives := [{ text := "world" }] }] }

/-- A collaborator environment in which every external call succeeds. -/
def envHappy : ProcEnv :=
  { dbUpdateOk := true
    downloadOk := true
    uploadOk := true
    startResult := some "op-1"
    waitResult := some resHelloWorld
    createTranscriptOk := true
    sendOk := true
    newTranscriptID := "tr-1" }

/-- `envHappy` except that persisting the transcript fails. -/
def envTranscriptFails : ProcEnv := { envHappy with createTranscriptOk := false }

/-- `envHappy` except that the Telegram download fails. -/
def envDownloadFails : ProcEnv := { envHappy with downloadOk := false }

/-- A store holding only `taskQueued`. -/
def dbQueued : DBState := { task := some taskQueued, transcripts := [] }

/-- A voice message fixture. -/
def msgVoice : VoiceMsg := { messageID := 42, chatID := 7, fileID := "file-1" }

/-! ## Derived descriptions of a failed cycle (used to state the failure
theorems) -/

/-- Which of the five step failures (if any) an environment makes the
cycle hit, together with the `errorText` the code records for it: the
download is attempted first, then the upload, then starting recognition,
then waiting for its result, and finally the extracted text is checked
for emptiness. -/
def cycleFailure (env : ProcEnv) : Option (ProcError × String) :=
  if env.downloadOk = false then some (ProcError.downloadFailed, "Failed to download file")
  else if env.uploadOk = false then some (ProcError.uploadFailed, "Failed to upload to S3")
  else
    match env.startResult with
    | none => some (ProcError.startFailed, "Failed to start recognition")
    | some _ =>
      match env.waitResult with
      | none => some (ProcError.waitFailed, "Recognition failed")
      | some res =>
        if res.GetFullText = "" then
          some (ProcError.noTextRecognized, "No text recognized")
        else none

/-- The task's `operationID` at the moment a cycle fails: the pickup
(`SetInProgress("")`) has stored the empty string, and a successful
recognition start replaces it by the returned operation id; the failure
transition itself never writes the field, so it is never `none`. -/
def cycleOpID (env : ProcEnv) : Option String :=
  if env.downloadOk = false then some ""
  else if env.uploadOk = false then some ""
  else
    match env.startResult with
    | none => some ""
    | some op => some op

/-- The task row a failed cycle leaves behind: Failed, with the recorded
error text, one more attempt, the failure instant as timestamp, and the
`operationID` current at the failure; all other fields are untouched. -/
def failedCycleTask (task0 : Task) (opID : Option String) (msg : String)
    (now : Nat) : Task :=
  { task0 with
    status := TaskStatus.failed
    operationID := opID
    errorText := some msg
    attempts := task0.attempts + 1
    updatedAt := now }

/-! ## Theorems -/

/-- C8: for a recognition result consisting of the segments `["hello"]`
and `["world"]` in that order, each with a single alternative,
`GetFullText` yields exactly `"hello world "`: the segments' texts in
segment order, each followed by a single space, so consecutive texts are
joined by a single space and the last carries a trailing one. -/
theorem getFullText_hello_world :
    resHelloWorld.GetFullText = "hello world " := rfl

/-- C10: with `MaxAttempts ≤ 0` the retry loop body never runs, so
`RetryWithExponentialBackoff` returns `nil` (`lastErr` is still `nil`)
without invoking the operation even once, for every context and
operation. -/
theorem retry_nonpositive_max_attempts {E : Type} (cfg : RetryConfig)
    (cancelAt : Option Nat) (fn : Nat → Option E)
    (h : cfg.MaxAttempts ≤ 0) :
    RetryWithExponentialBackoff cfg cancelAt fn =
      (RetryResult.ok, { time := 0, calls := 0 }) := by
  have h0 : cfg.MaxAttempts.toNat = 0 := by omega
  unfold RetryWithExponentialBackoff
  rw [h0]
  rfl

/-- Witness for `retry_nonpositive_max_attempts` at the concrete
configuration `cfgNoAttempts`. -/
theorem retry_nonpositive_max_attempts_witness :
    cfgNoAttempts.MaxAttempts ≤ 0 ∧
    RetryWithExponentialBackoff cfgNoAttempts none (fun _ => (some 0 : Option Nat)) =
      (RetryResult.ok, { time := 0, calls := 0 }) :=
  ⟨by decide,
   retry_nonpositive_max_attempts cfgNoAttempts none (fun _ => some 0) (by decide)⟩

/-- C2 counterexample: with `maxFailures = 2` and cooldown `10`, failures
at instants `0` and `1` open the breaker; at instant `20` the cooldown has
elapsed and the trial call runs and fails.  The claim says the failed
trial re-opens the breaker so that subsequent calls fail fast for a fresh
cooldown window; instead the breaker is left Half-Open (entering Half-Open
zeroed the failure count, so the trial's failure only brings it to `1`,
below the threshold `2`), and the next call at instant `21` — well inside
the claimed fresh window — invokes the protected function again instead of
failing fast. -/
theorem circuit_failed_trial_cex :
    cbOpened.state = CBState.stateOpen ∧
    cbFailedTrial.invoked = true ∧
    cbFailedTrial.cb.state = CBState.stateHalfOpen ∧
    cbFailedTrial.cb.state ≠ CBState.stateOpen ∧
    (cbFailedTrial.cb.execute 21 false).invoked = true ∧
    (cbFailedTrial.cb.execute 21 false).result ≠ CBResult.circuitOpen := by
  decide

/-- C2 amended: after the breaker has opened and strictly more than the
cooldown has elapsed since the last failure, the next `Execute` call runs
the protected function as a trial; a successful trial resets the breaker
to Closed and zeroes the failure count; a failed trial stamps
`lastFailTime` with the trial instant and leaves the failure count at `1`
(it was zeroed on entering Half-Open), so it re-opens the breaker only
when `maxFailures ≤ 1` — with `maxFailures ≥ 2` the breaker stays
Half-Open and subsequent calls invoke the protected function rather than
failing fast. -/
theorem circuit_trial_amended (cb : CircuitBreaker) (now : Nat)
    (hopen : cb.state = CBState.stateOpen)
    (helapsed : cb.timeout < now - cb.lastFailTime) :
    (cb.execute now true).invoked = true ∧
    (cb.execute now false).invoked = true ∧
    (cb.execute now true).cb.state = CBState.stateClosed ∧
    (cb.execute now true).cb.failures = 0 ∧
    (cb.execute now false).cb.failures = 1 ∧
    (cb.execute now false).cb.lastFailTime = now ∧
    (cb.execute now false).cb.state =
      (if cb.maxFailures ≤ 1 then CBState.stateOpen else CBState.stateHalfOpen) := by
  simp [CircuitBreaker.execute, CircuitBreaker.afterCall, hopen, helapsed]

/-- Witness for `circuit_trial_amended` at the concrete opened breaker
`cbOpened` and trial instant `20`. -/
theorem circuit_trial_amended_witness :
    cbOpened.state = CBState.stateOpen ∧
    cbOpened.timeout < 20 - cbOpened.lastFailTime ∧
    ((cbOpened.execute 20 true).invoked = true ∧
     (cbOpened.execute 20 false).invoked = true ∧
     (cbOpened.execute 20 true).cb.state = CBState.stateClosed ∧
     (cbOpened.execute 20 true).cb.failures = 0 ∧
     (cbOpened.execute 20 false).cb.failures = 1 ∧
     (cbOpened.execute 20 false).cb.lastFailTime = 20 ∧
     (cbOpened.execute 20 false).cb.state =
       (if cbOpened.maxFailures ≤ 1 then CBState.stateOpen else CBState.stateHalfOpen)) :=
  ⟨by decide, by decide, circuit_trial_amended cbOpened 20 (by decide) (by decide)⟩

/-- One failing call on a Closed breaker: the failure count goes up by
one, the failure instant is stamped, and the breaker opens exactly when
the count reaches the threshold. -/
theorem execute_fail_closed (cb : CircuitBreaker) (t : Nat)
    (hclosed : cb.state = CBState.stateClosed) :
    (cb.execute t false).cb =
      { cb with
        failures := cb.failures + 1
        lastFailTime := t
        state :=
          if cb.maxFailures ≤ cb.failures + 1 then CBState.stateOpen
          else CBState.stateClosed } := by
  simp [CircuitBreaker.execute, CircuitBreaker.afterCall, hclosed]

/-- Feeding failures into a Closed breaker whose remaining headroom is
exactly the length of the sequence drives it to Open. -/
theorem feedFailures_opens :
    ∀ (ts : List Nat) (cb : CircuitBreaker),
      cb.state = CBState.stateClosed →
      cb.failures + ts.length = cb.maxFailures →
      ts ≠ [] →
      (feedFailures cb ts).state = CBState.stateOpen := by
  intro ts
  induction ts with
  | nil => intro cb _ _ hne; exact absurd rfl hne
  | cons t rest ih =>
    intro cb hclosed hcount _
    have hstep : feedFailures cb (t :: rest) = feedFailures (cb.execute t false).cb rest := rfl
    rw [hstep, execute_fail_closed cb t hclosed]
    rcases rest with _ | ⟨t2, rest2⟩
    · have hth : cb.maxFailures ≤ cb.failures + 1 := by
        simp at hcount; omega
      simp [feedFailures, hth]
    · have hth : ¬ cb.maxFailures ≤ cb.failures + 1 := by
        simp at hcount; omega
      simp only [hth, if_false]
      apply ih
      · rfl
      · simp at hcount ⊢; omega
      · simp

/-- C6: (1) starting from a fresh breaker, any sequence of `maxFailures ≥ 1`
consecutive failures (at arbitrary instants) leaves the breaker reporting
Open; (2) while Open, any call at an instant at which no more than the
cooldown has elapsed since the last failure returns the distinct
circuit-open error immediately, does not invoke the protected function
(whatever its outcome would have been), and leaves the breaker
unchanged. -/
theorem circuit_opens_and_fails_fast :
    (∀ (maxFailures timeout : Nat) (ts : List Nat),
      1 ≤ maxFailures → ts.length = maxFailures →
      (feedFailures (NewCircuitBreaker maxFailures timeout) ts).GetState =
        CBState.stateOpen) ∧
    (∀ (cb : CircuitBreaker) (now : Nat) (fnOk : Bool),
      cb.state = CBState.stateOpen →
      now - cb.lastFailTime ≤ cb.timeout →
      cb.execute now fnOk =
        { result := CBResult.circuitOpen, invoked := false, cb := cb }) := by
  constructor
  · intro maxFailures timeout ts h1 hlen
    have hne : ts ≠ [] := by
      intro h
      rw [h] at hlen
      simp at hlen
      omega
    exact feedFailures_opens ts (NewCircuitBreaker maxFailures timeout) rfl
      (by simp [NewCircuitBreaker, hlen]) hne
  · intro cb now fnOk hopen hcool
    have hnc : ¬ cb.timeout < now - cb.lastFailTime := by omega
    simp [CircuitBreaker.execute, hopen, hnc]

/-- Witness for `circuit_opens_and_fails_fast`: the two-failure sequence
at instants `0, 1` opens `cbFresh` (threshold `2`), and at instant `5`
(only `4` elapsed of the `10` cooldown) the opened breaker fails fast
without invoking the function. -/
theorem circuit_opens_and_fails_fast_witness :
    (1 ≤ 2 ∧ ([0, 1] : List Nat).length = 2 ∧
      (feedFailures (NewCircuitBreaker 2 10) [0, 1]).GetState = CBState.stateOpen) ∧
    (cbOpened.state = CBState.stateOpen ∧ 5 - cbOpened.lastFailTime ≤ cbOpened.timeout ∧
      cbOpened.execute 5 false =
        { result := CBResult.circuitOpen, invoked := false, cb := cbOpened }) :=
  ⟨⟨by decide, by decide,
    circuit_opens_and_fails_fast.1 2 10 [0, 1] (by decide) (by decide)⟩,
   ⟨by decide, by decide,
    circuit_opens_and_fails_fast.2 cbOpened 5 false (by decide) (by decide)⟩⟩

/-- C3 counterexample: with capacity (`rate`) `2` and interval `10`, the
bucket drained at instant `0` has, by the claim's replenishment rule
("`rate` tokens per elapsed `interval`"), `2` tokens again at instant
`10`, so two acquisitions at instant `10` would succeed.  The code adds
only `⌊elapsed / interval⌋ = 1` token: the first acquisition at instant
`10` succeeds and leaves the bucket empty, and the second fails. -/
theorem rate_limiter_replenish_cex :
    (rlFresh.allow 0).1 = true ∧
    ((rlFresh.allow 0).2.allow 0).1 = true ∧
    (rlDrained.allow 0).1 = false ∧
    (rlDrained.allow 10).1 = true ∧
    (rlDrained.allow 10).2.tokens = 0 ∧
    ((rlDrained.allow 10).2.allow 10).1 = false := by
  decide

/-- C3 amended: replenishment at a non-blocking acquisition adds
`⌊elapsed / interval⌋` tokens — one per full elapsed interval, regardless
of `rate` — capped at the capacity, computed lazily from the elapsed time;
the stored token count never exceeds the capacity; and with capacity `2`
and interval `T`, two immediate acquisitions succeed, a third fails, and
after waiting at least `T` a further acquisition succeeds.  Concretely:
(1) the cap is an invariant of `Allow`; (2) from an empty bucket, exactly
one interval after the last replenishment a single token is available —
the acquisition succeeds and leaves the bucket empty again, for every
capacity `≥ 1` (the claim's rule would leave `rate - 1` tokens);
(3) the capacity-2 scenario. -/
theorem rate_limiter_amended :
    (∀ (rl : RateLimiter) (now : Nat),
      rl.tokens ≤ rl.rate → ((rl.allow now).2).tokens ≤ rl.rate) ∧
    (∀ (rate interval t : Nat), 0 < interval → 1 ≤ rate →
      (RateLimiter.allow
        { rate := rate, interval := interval, tokens := 0, lastTime := t }
        (t + interval)).1 = true ∧
      (RateLimiter.allow
        { rate := rate, interval := interval, tokens := 0, lastTime := t }
        (t + interval)).2.tokens = 0) ∧
    (∀ (T t : Nat), 0 < T → T ≤ t →
      ((NewRateLimiter 2 T 0).allow 0).1 = true ∧
      (((NewRateLimiter 2 T 0).allow 0).2.allow 0).1 = true ∧
      ((((NewRateLimiter 2 T 0).allow 0).2.allow 0).2.allow 0).1 = false ∧
      ((((NewRateLimiter 2 T 0).allow 0).2.allow 0).2.allow t).1 = true) := by
  refine ⟨?_, ?_, ?_⟩
  · intro rl now hcap
    simp only [RateLimiter.allow]
    split
    · split
      · split
        all_goals simp
      · split
        all_goals simp
        all_goals omega
    · split
      · simp
        omega
      · simpa using hcap
  · intro rate interval t hiv hrate
    have helapsed : t + interval - t = interval := by omega
    have hdiv : interval / interval = 1 := Nat.div_self hiv
    have hnr : ¬ rate < 0 + 1 := by omega
    simp [RateLimiter.allow, helapsed, hdiv, hnr]
  · intro T t hT hTt
    have hget : 1 ≤ t / T := (Nat.one_le_div_iff hT).mpr hTt
    have h1 : (NewRateLimiter 2 T 0).allow 0 =
        (true, { rate := 2, interval := T, tokens := 1, lastTime := 0 }) := by
      simp [NewRateLimiter, RateLimiter.allow]
    have h2 : RateLimiter.allow { rate := 2, interval := T, tokens := 1, lastTime := 0 } 0 =
        (true, { rate := 2, interval := T, tokens := 0, lastTime := 0 }) := by
      simp [RateLimiter.allow]
    have h3 : RateLimiter.allow { rate := 2, interval := T, tokens := 0, lastTime := 0 } 0 =
        (false, { rate := 2, interval := T, tokens := 0, lastTime := 0 }) := by
      simp [RateLimiter.allow]
    have h4 : (RateLimiter.allow { rate := 2, interval := T, tokens := 0, lastTime := 0 } t).1
        = true := by
      rcases Nat.exists_eq_add_of_le hget with ⟨q, hq⟩
      have h0 : 0 < t / T := hget
      simp only [RateLimiter.allow, Nat.sub_zero, Nat.zero_add, hq]
      have h01 : (0 : Nat) < 1 + q := by omega
      by_cases hc : 2 < 1 + q
      · simp [hc, h01]
      · simp [hc, h01]
    exact ⟨by simp [h1], by simp [h1, h2], by simp [h1, h2, h3], by simp [h1, h2, h4]⟩

/-- Witness for `rate_limiter_amended`: the cap invariant at `rlFresh`
and instant `3`; the one-token replenishment with capacity `2`,
interval `10`, empty bucket stamped at `4`, queried at `14`; and the
capacity-2 scenario with `T = 7` and a wait until instant `9`. -/
theorem rate_limiter_amended_witness :
    (rlFresh.tokens ≤ rlFresh.rate ∧ ((rlFresh.allow 3).2).tokens ≤ rlFresh.rate) ∧
    (0 < 10 ∧ 1 ≤ 2 ∧
      (RateLimiter.allow { rate := 2, interval := 10, tokens := 0, lastTime := 4 } 14).1 = true ∧
      (RateLimiter.allow { rate := 2, interval := 10, tokens := 0, lastTime := 4 } 14).2.tokens = 0) ∧
    (0 < 7 ∧ 7 ≤ 9 ∧
      ((NewRateLimiter 2 7 0).allow 0).1 = true ∧
      (((NewRateLimiter 2 7 0).allow 0).2.allow 0).1 = true ∧
      ((((NewRateLimiter 2 7 0).allow 0).2.allow 0).2.allow 0).1 = false ∧
      ((((NewRateLimiter 2 7 0).allow 0).2.allow 0).2.allow 9).1 = true) :=
  ⟨⟨by decide, rate_limiter_amended.1 rlFresh 3 (by decide)⟩,
   ⟨by decide, by decide,
    (rate_limiter_amended.2.1 2 10 4 (by decide) (by decide)).1,
    (rate_limiter_amended.2.1 2 10 4 (by decide) (by decide)).2⟩,
   ⟨by decide, by decide,
    (rate_limiter_amended.2.2 7 9 (by decide) (by decide)).1,
    (rate_limiter_amended.2.2 7 9 (by decide) (by decide)).2.1,
    (rate_limiter_amended.2.2 7 9 (by decide) (by decide)).2.2.1,
    (rate_limiter_amended.2.2 7 9 (by decide) (by decide)).2.2.2⟩⟩

/-- C4 counterexample: with `cfgBackoff` (first backoff interval `10`) and
an always-failing operation, the cancellation signal fires at instant `5`
— in the middle of the first backoff sleep, which spans instants `0` to
`10`.  The claim requires the in-flight wait to be interrupted and the
call to return the cancellation reason immediately, at instant `5`; the
run instead completes the sleep and only returns the cancellation reason
at instant `10`, at the next attempt boundary. -/
theorem retry_sleep_not_interruptible_cex :
    RetryWithExponentialBackoff cfgBackoff (some 5) alwaysFails =
      (RetryResult.cancelled, { time := 10, calls := 1 }) ∧
    (10 : Nat) ≠ 5 := by
  constructor
  · decide
  · decide

/-- C4 amended: (1) cancellation is observed only by the non-blocking
check at the start of each attempt — once the signal has fired by an
attempt boundary, the operation is not invoked again and the call returns
the cancellation reason (rather than the operation's last error)
immediately, with state unchanged; (2) the backoff wait itself is a plain
`time.Sleep` and is not interruptible: for every configuration with at
least two attempts and an always-failing operation, a signal firing
strictly inside the first backoff sleep (`0 < tc ≤ InitialInterval`)
still lets the sleep complete — the call returns the cancellation reason
only at instant `InitialInterval`, after one invocation, not at `tc`. -/
theorem retry_cancel_amended :
    (∀ (E : Type) (cfg : RetryConfig) (cancelAt : Option Nat)
      (fn : Nat → Option E) (fuel iv : Nat) (st : RetryState) (le : Option E),
      ctxDone cancelAt st.time = true →
      retryAux cfg cancelAt fn (fuel + 1) iv st le = (RetryResult.cancelled, st)) ∧
    (∀ (cfg : RetryConfig) (tc : Nat),
      2 ≤ cfg.MaxAttempts → 0 < tc → tc ≤ cfg.InitialInterval →
      RetryWithExponentialBackoff cfg (some tc) alwaysFails =
        (RetryResult.cancelled, { time := cfg.InitialInterval, calls := 1 })) := by
  constructor
  · intro E cfg cancelAt fn fuel iv st le hdone
    simp [retryAux, hdone]
  · intro cfg tc hma htc hiv
    obtain ⟨k, hk⟩ : ∃ k, cfg.MaxAttempts.toNat = k + 2 := ⟨cfg.MaxAttempts.toNat - 2, by omega⟩
    have hnot0 : ctxDone (some tc) 0 = false := by
      simp [ctxDone]
      omega
    have hyes : ctxDone (some tc) (0 + cfg.InitialInterval) = true := by
      simp [ctxDone]
      omega
    unfold RetryWithExponentialBackoff
    rw [hk]
    simp only [retryAux, hnot0, alwaysFails, Bool.false_eq_true, if_false]
    simp only [Nat.zero_lt_succ, if_true, retryAux, hyes, if_true]
    simp [Nat.zero_add]

/-- Witness for `retry_cancel_amended`: part (1) at a state whose clock
`7` has passed the signal instant `3`; part (2) at `cfgBackoff` with the
signal at instant `5`. -/
theorem retry_cancel_amended_witness :
    (ctxDone (some 3) 7 = true ∧
      retryAux cfgBackoff (some 3) alwaysFails 2 10 { time := 7, calls := 1 } none =
        (RetryResult.cancelled, { time := 7, calls := 1 })) ∧
    (2 ≤ cfgBackoff.MaxAttempts ∧ 0 < 5 ∧ 5 ≤ cfgBackoff.InitialInterval ∧
      RetryWithExponentialBackoff cfgBackoff (some 5) alwaysFails =
        (RetryResult.cancelled, { time := cfgBackoff.InitialInterval, calls := 1 })) :=
  ⟨⟨by decide,
    retry_cancel_amended.1 Unit cfgBackoff (some 3) alwaysFails 1 10
      { time := 7, calls := 1 } none (by decide)⟩,
   ⟨by decide, by decide, by decide,
    retry_cancel_amended.2 cfgBackoff 5 (by decide) (by decide) (by decide)⟩⟩

/-- Running the retry loop against `failsThenSucceeds N` with `m` of the
first `N` failures still ahead and at most `m` iterations of fuel: every
iteration fails, and the loop ends returning the error of the last
invocation, `c + m - 1`, after `m` further invocations. -/
theorem retryAux_fts_fails (cfg : RetryConfig) (N : Nat) :
    ∀ (m iv t c : Nat) (le : Option Nat), 1 ≤ m → c + m ≤ N →
      ∃ t2, retryAux cfg none (failsThenSucceeds N) m iv { time := t, calls := c } le =
        (RetryResult.failed (c + m - 1), { time := t2, calls := c + m }) := by
  intro m
  induction m with
  | zero => intro iv t c le h1 h2; exact absurd h1 (by omega)
  | succ m ih =>
    intro iv t c le _ hle
    have hcN : c < N := by omega
    by_cases hm : 0 < m
    · obtain ⟨t2, heq⟩ :=
        ih (if cfg.MaxInterval < cfg.grow iv then cfg.MaxInterval else cfg.grow iv)
          (t + iv) (c + 1) (some c) hm (by omega)
      refine ⟨t2, ?_⟩
      simp only [retryAux, ctxDone, failsThenSucceeds, hcN, if_true, hm,
        Bool.false_eq_true, if_false]
      rw [heq]
      have h1 : c + 1 + m = c + (m + 1) := by omega
      rw [h1]
    · have hm0 : m = 0 := by omega
      subst hm0
      refine ⟨t, ?_⟩
      simp [retryAux, ctxDone, failsThenSucceeds, hcN]

/-- Running the retry loop against `failsThenSucceeds N` with the `N`-th
invocation within reach of the fuel: the first `N - c` further iterations
fail, invocation number `N` succeeds, and the loop returns `nil` after a
total of `N + 1` invocations. -/
theorem retryAux_fts_succeeds (cfg : RetryConfig) (N : Nat) :
    ∀ (m iv t c : Nat) (le : Option Nat), c ≤ N → N < c + m →
      ∃ t2, retryAux cfg none (failsThenSucceeds N) m iv { time := t, calls := c } le =
        (RetryResult.ok, { time := t2, calls := N + 1 }) := by
  intro m
  induction m with
  | zero => intro iv t c le h1 h2; exact absurd h2 (by omega)
  | succ m ih =>
    intro iv t c le hcle hlt
    by_cases hNc : N ≤ c
    · have hceq : c = N := by omega
      subst hceq
      refine ⟨t, ?_⟩
      simp [retryAux, ctxDone, failsThenSucceeds]
    · have hcN : c < N := by omega
      have hm : 0 < m := by omega
      obtain ⟨t2, heq⟩ :=
        ih (if cfg.MaxInterval < cfg.grow iv then cfg.MaxInterval else cfg.grow iv)
          (t + iv) (c + 1) (some c) (by omega) (by omega)
      refine ⟨t2, ?_⟩
      simp only [retryAux, ctxDone, failsThenSucceeds, hcN, if_true, hm,
        Bool.false_eq_true, if_false]
      rw [heq]

/-- C5: against an operation that fails on exactly its first `N`
invocations and then succeeds, with a context that is never cancelled:
if `MaxAttempts > N` the call returns `nil` and the operation is invoked
exactly `N + 1` times; if `1 ≤ MaxAttempts ≤ N` the call returns the last
failure (the error of invocation `MaxAttempts`, index `MaxAttempts - 1`)
and the operation is invoked exactly `MaxAttempts` times. -/
theorem retry_fails_n_then_succeeds (cfg : RetryConfig) (N : Nat) :
    ((N : Int) < cfg.MaxAttempts →
      ∃ st, RetryWithExponentialBackoff cfg none (failsThenSucceeds N) =
        (RetryResult.ok, st) ∧ st.calls = N + 1) ∧
    (1 ≤ cfg.MaxAttempts → cfg.MaxAttempts ≤ (N : Int) →
      ∃ st, RetryWithExponentialBackoff cfg none (failsThenSucceeds N) =
        (RetryResult.failed (cfg.MaxAttempts.toNat - 1), st) ∧
        st.calls = cfg.MaxAttempts.toNat) := by
  constructor
  · intro h
    obtain ⟨t2, heq⟩ := retryAux_fts_succeeds cfg N cfg.MaxAttempts.toNat
      cfg.InitialInterval 0 0 none (by omega) (by omega)
    refine ⟨{ time := t2, calls := N + 1 }, ?_, rfl⟩
    unfold RetryWithExponentialBackoff
    exact heq
  · intro h1 h2
    obtain ⟨t2, heq⟩ := retryAux_fts_fails cfg N cfg.MaxAttempts.toNat
      cfg.InitialInterval 0 0 none (by omega) (by omega)
    refine ⟨{ time := t2, calls := cfg.MaxAttempts.toNat }, ?_, rfl⟩
    unfold RetryWithExponentialBackoff
    rw [heq]
    simp

/-- Witness for `retry_fails_n_then_succeeds` at `cfgBackoff`
(`MaxAttempts = 3`): the operation failing once is invoked twice and the
call succeeds; the operation failing five times is invoked three times
and the call returns the error of invocation index `2`. -/
theorem retry_fails_n_then_succeeds_witness :
    ((1 : Int) < cfgBackoff.MaxAttempts ∧
      ∃ st, RetryWithExponentialBackoff cfgBackoff none (failsThenSucceeds 1) =
        (RetryResult.ok, st) ∧ st.calls = 1 + 1) ∧
    (1 ≤ cfgBackoff.MaxAttempts ∧ cfgBackoff.MaxAttempts ≤ (5 : Int) ∧
      ∃ st, RetryWithExponentialBackoff cfgBackoff none (failsThenSucceeds 5) =
        (RetryResult.failed (cfgBackoff.MaxAttempts.toNat - 1), st) ∧
        st.calls = cfgBackoff.MaxAttempts.toNat) :=
  ⟨⟨by decide, (retry_fails_n_then_succeeds cfgBackoff 1).1 (by decide)⟩,
   ⟨by decide, by decide,
    (retry_fails_n_then_succeeds cfgBackoff 5).2 (by decide) (by decide)⟩⟩

/-- C1 counterexample: a cycle in which every step succeeds except that
persisting the Transcript fails (`CreateTranscript` returns an error,
which `ProcessTask` only logs).  The cycle still marks the task Done and
returns `nil`, leaving a reachable store whose task has status Done while
no Transcript row for it exists — refuting "status = Done implies a
Transcript for that task exists" and "if persisting the Transcript does
not succeed, the task is not marked Done". -/
theorem done_without_transcript_cex :
    (ProcessTask envTranscriptFails dbQueued 5).result = none ∧
    ((ProcessTask envTranscriptFails dbQueued 5).db.task.map Task.status) =
      some TaskStatus.done ∧
    (ProcessTask envTranscriptFails dbQueued 5).db.transcripts = [] := by
  decide

/-- C1 amended: on a cycle whose external steps all succeed (task row
present, updates applied, download, upload, recognition start and wait
succeed, non-empty extracted text), `ProcessTask` attempts to persist the
Transcript before marking the task Done, but a failed persist is only
logged: the task is marked Done and the cycle reports success whether or
not the Transcript was persisted, so status = Done does not imply a
Transcript exists.  A Transcript row (with the extracted text, owned by
the task) is appended exactly when the persist succeeds. -/
theorem done_without_transcript_amended (env : ProcEnv) (db : DBState)
    (task0 : Task) (now : Nat) (op : String) (res : RecognitionResult)
    (htask : db.task = some task0)
    (hupd : env.dbUpdateOk = true)
    (hdl : env.downloadOk = true)
    (hul : env.uploadOk = true)
    (hst : env.startResult = some op)
    (hwt : env.waitResult = some res)
    (htext : res.GetFullText ≠ "") :
    (ProcessTask env db now).result = none ∧
    ((ProcessTask env db now).db.task.map Task.status) = some TaskStatus.done ∧
    (ProcessTask env db now).db.transcripts =
      (if env.createTranscriptOk then
        db.transcripts ++
          [{ id := env.newTranscriptID
             taskID := task0.id
             text := res.GetFullText
             createdAt := now }]
      else db.transcripts) := by
  simp [ProcessTask, htask, hupd, hdl, hul, hst, hwt, htext, updateTask,
    Task.SetInProgress, Task.SetCompleted]
  split
  · rfl
  · rfl

/-- Witness for `done_without_transcript_amended` at the all-successful
environment `envHappy` on `dbQueued`. -/
theorem done_without_transcript_amended_witness :
    dbQueued.task = some taskQueued ∧
    envHappy.dbUpdateOk = true ∧
    envHappy.downloadOk = true ∧
    envHappy.uploadOk = true ∧
    envHappy.startResult = some "op-1" ∧
    envHappy.waitResult = some resHelloWorld ∧
    resHelloWorld.GetFullText ≠ "" ∧
    ((ProcessTask envHappy dbQueued 5).result = none ∧
      ((ProcessTask envHappy dbQueued 5).db.task.map Task.status) =
        some TaskStatus.done ∧
      (ProcessTask envHappy dbQueued 5).db.transcripts =
        (if envHappy.createTranscriptOk then
          dbQueued.transcripts ++
            [{ id := envHappy.newTranscriptID
               taskID := taskQueued.id
               text := resHelloWorld.GetFullText
               createdAt := 5 }]
        else dbQueued.transcripts)) :=
  ⟨by decide, by decide, by decide, by decide, by decide, by decide, by decide,
   done_without_transcript_amended envHappy dbQueued taskQueued 5 "op-1"
     resHelloWorld (by decide) (by decide) (by decide) (by decide) (by decide)
     (by decide) (by decide)⟩

/-- C7: whichever of the five step failures (download, upload,
recognition start, recognition wait, empty recognition result) a cycle
hits, the task — picked up as InProgress at the start of the cycle — ends
the cycle Failed with the step's `errorText` recorded, `attempts`
incremented by exactly one, the timestamp updated to the failure instant,
and `operationID` left at its current value (the empty string stored at
pickup, or the id of a successfully started recognition) — never cleared
to null; the failure notification is sent to the originator exactly when
the incremented `attempts` has reached the retry ceiling `3`, so earlier
failed cycles are silent to the user. -/
theorem failed_cycle_transition (env : ProcEnv) (db : DBState) (task0 : Task)
    (now : Nat) (e : ProcError) (msg : String)
    (htask : db.task = some task0)
    (hupd : env.dbUpdateOk = true)
    (hfail : cycleFailure env = some (e, msg)) :
    (ProcessTask env db now).result = some e ∧
    (ProcessTask env db now).db.task =
      some (failedCycleTask task0 (cycleOpID env) msg now) ∧
    ((ProcessTask env db now).failureNotified = true ↔ 3 ≤ task0.attempts + 1) := by
  by_cases hdl : env.downloadOk = false
  · simp only [cycleFailure, hdl, if_true, Option.some.injEq, Prod.mk.injEq] at hfail
    obtain ⟨he, hm⟩ := hfail
    subst he
    subst hm
    simp [ProcessTask, htask, hdl, hupd, handleTaskError, updateTask,
      Task.SetInProgress, Task.SetError, Task.IncrementAttempts,
      failedCycleTask, cycleOpID]
  · have hdl1 : env.downloadOk = true := by
      revert hdl
      cases env.downloadOk <;> simp
    by_cases hul : env.uploadOk = false
    · simp [cycleFailure, hdl, hul] at hfail
      obtain ⟨he, hm⟩ := hfail
      subst he
      subst hm
      simp [ProcessTask, htask, hdl1, hul, hupd, handleTaskError, updateTask,
        Task.SetInProgress, Task.SetError, Task.IncrementAttempts,
        failedCycleTask, cycleOpID]
    · have hul1 : env.uploadOk = true := by
        revert hul
        cases env.uploadOk <;> simp
      rcases hstart : env.startResult with _ | op
      · simp [cycleFailure, hdl, hul, hstart] at hfail
        obtain ⟨he, hm⟩ := hfail
        subst he
        subst hm
        simp [ProcessTask, htask, hdl1, hul1, hstart, hupd, handleTaskError,
          updateTask, Task.SetInProgress, Task.SetError, Task.IncrementAttempts,
          failedCycleTask, cycleOpID]
      · rcases hwait : env.waitResult with _ | res
        · simp [cycleFailure, hdl, hul, hstart, hwait] at hfail
          obtain ⟨he, hm⟩ := hfail
          subst he
          subst hm
          simp [ProcessTask, htask, hdl1, hul1, hstart, hwait, hupd,
            handleTaskError, updateTask, Task.SetInProgress, Task.SetError,
            Task.IncrementAttempts, failedCycleTask, cycleOpID]
        · by_cases htext : res.GetFullText = ""
          · simp [cycleFailure, hdl, hul, hstart, hwait, htext] at hfail
            obtain ⟨he, hm⟩ := hfail
            subst he
            subst hm
            simp [ProcessTask, htask, hdl1, hul1, hstart, hwait, htext, hupd,
              handleTaskError, updateTask, Task.SetInProgress, Task.SetError,
              Task.IncrementAttempts, failedCycleTask, cycleOpID]
          · simp [cycleFailure, hdl, hul, hstart, hwait, htext] at hfail

/-- Witness for `failed_cycle_transition`: the cycle on `dbQueued` whose
Telegram download fails; `taskQueued` had no previous attempts, so the
failure is recorded without notifying the user. -/
theorem failed_cycle_transition_witness :
    dbQueued.task = some taskQueued ∧
    envDownloadFails.dbUpdateOk = true ∧
    cycleFailure envDownloadFails =
      some (ProcError.downloadFailed, "Failed to download file") ∧
    ((ProcessTask envDownloadFails dbQueued 5).result =
        some ProcError.downloadFailed ∧
      (ProcessTask envDownloadFails dbQueued 5).db.task =
        some (failedCycleTask taskQueued (cycleOpID envDownloadFails)
          "Failed to download file" 5) ∧
      ((ProcessTask envDownloadFails dbQueued 5).failureNotified = true ↔
        3 ≤ taskQueued.attempts + 1)) :=
  ⟨by decide, by decide, by decide,
   failed_cycle_transition envDownloadFails dbQueued taskQueued 5
     ProcError.downloadFailed "Failed to download file" (by decide) (by decide)
     (by decide)⟩

/-- Appending one row changes a pair's row count by one exactly when the
new row carries that pair. -/
theorem pairCount_append (ts : List Task) (t : Task) (c i : Int) :
    pairCount (ts ++ [t]) c i =
      pairCount ts c i +
        (if (t.chatID == c && t.telegramMessageID == i) = true then 1 else 0) := by
  simp only [pairCount, List.filter_append, List.length_append]
  by_cases hp : (t.chatID == c && t.telegramMessageID == i) = true
  · simp [List.filter, hp]
  · simp [List.filter, hp]

/-- A pair is absent from the table exactly when its row count is zero. -/
theorem pairTaken_false_iff (ts : List Task) (c i : Int) :
    pairTaken ts c i = false ↔ pairCount ts c i = 0 := by
  induction ts with
  | nil => simp [pairTaken, pairCount]
  | cons a ts ih =>
    by_cases hp : (a.chatID == c && a.telegramMessageID == i) = true
    · simp [pairTaken, pairCount, List.filter, hp]
    · simp only [pairTaken, pairCount, List.any_cons, List.filter, hp] at ih ⊢
      simp only [Bool.or_eq_false_iff]
      simp [hp, ih]

/-- A successful `CreateTask` preserves "at most one row per pair": the
insert is refused whenever its own pair is already present. -/
theorem createTask_preserves (ts : List Task) (t : Task) (ts1 : List Task)
    (c i : Int) (h : pairCount ts c i ≤ 1) (hct : CreateTask ts t = some ts1) :
    pairCount ts1 c i ≤ 1 := by
  by_cases htaken : pairTaken ts t.chatID t.telegramMessageID = true
  · simp [CreateTask, htaken] at hct
  · have hfalse : pairTaken ts t.chatID t.telegramMessageID = false := by
      revert htaken
      cases pairTaken ts t.chatID t.telegramMessageID <;> simp
    simp only [CreateTask, hfalse, Bool.false_eq_true, if_false,
      Option.some.injEq] at hct
    subst hct
    rw [pairCount_append]
    by_cases hmatch : (t.chatID == c && t.telegramMessageID == i) = true
    · have hc : t.chatID = c ∧ t.telegramMessageID = i := by simpa using hmatch
      have h0 : pairCount ts c i = 0 := by
        rw [← hc.1, ← hc.2]
        exact (pairTaken_false_iff ts t.chatID t.telegramMessageID).mp hfalse
      simp [hmatch, h0]
    · rw [if_neg hmatch]
      omega

/-- C9: (1) `handleVoice` preserves "at most one Task row per
(chat id, source-message id) pair" — its insert runs against the unique
index and a refused insert adds nothing; (2) submitting two voice
messages with identical (chat, source-message) pairs (whatever their
fresh task ids and instants) results in exactly one Task row for that
pair: the first submission creates it, and the duplicate's insert fails
against the uniqueness constraint, creating no second row. -/
theorem ingress_unique_pair :
    (∀ (tasks : List Task) (newID : String) (msg : VoiceMsg) (now : Nat)
      (c i : Int), pairCount tasks c i ≤ 1 →
      pairCount (handleVoice tasks newID msg now).1 c i ≤ 1) ∧
    (∀ (tasks : List Task) (id1 id2 : String) (msg : VoiceMsg)
      (now1 now2 : Nat),
      pairCount tasks msg.chatID msg.messageID = 0 →
      (handleVoice tasks id1 msg now1).2 = true ∧
      (handleVoice (handleVoice tasks id1 msg now1).1 id2 msg now2).2 = false ∧
      pairCount (handleVoice (handleVoice tasks id1 msg now1).1 id2 msg now2).1
        msg.chatID msg.messageID = 1) := by
  constructor
  · intro tasks newID msg now c i h
    simp only [handleVoice]
    split
    · simpa using h
    · next ts1 hct => exact createTask_preserves tasks _ ts1 c i h hct
  · intro tasks id1 id2 msg now1 now2 h0
    have hfalse : pairTaken tasks msg.chatID msg.messageID = false :=
      (pairTaken_false_iff tasks msg.chatID msg.messageID).mpr h0
    have hfirst : handleVoice tasks id1 msg now1 =
        (tasks ++
          [{ id := id1
             telegramMessageID := msg.messageID
             chatID := msg.chatID
             fileID := msg.fileID
             status := TaskStatus.queued
             operationID := none
             attempts := 0
             errorText := none
             createdAt := now1
             updatedAt := now1 }], true) := by
      simp [handleVoice, CreateTask, hfalse]
    have htaken2 : ∀ (t2 : Task),
        t2.chatID = msg.chatID → t2.telegramMessageID = msg.messageID →
        pairTaken (tasks ++ [t2]) msg.chatID msg.messageID = true := by
      intro t2 hc hm
      simp [pairTaken, hc, hm]
    rw [hfirst]
    refine ⟨rfl, ?_, ?_⟩
    · simp [handleVoice, CreateTask, htaken2]
    · simp only [handleVoice, CreateTask, htaken2, if_true]
      rw [pairCount_append]
      simp [h0]

/-- Witness for `ingress_unique_pair`: starting from an empty table, a
first submission of `msgVoice` creates the row and a second identical
submission is refused, leaving exactly one row for the pair `(7, 42)`. -/
theorem ingress_unique_pair_witness :
    (pairCount [] 7 42 ≤ 1 ∧
      pairCount (handleVoice [] "id1" msgVoice 0).1 7 42 ≤ 1) ∧
    (pairCount [] msgVoice.chatID msgVoice.messageID = 0 ∧
      ((handleVoice [] "id1" msgVoice 0).2 = true ∧
       (handleVoice (handleVoice [] "id1" msgVoice 0).1 "id2" msgVoice 1).2 =
         false ∧
       pairCount
         (handleVoice (handleVoice [] "id1" msgVoice 0).1 "id2" msgVoice 1).1
         msgVoice.chatID msgVoice.messageID = 1)) :=
  ⟨⟨by decide, ingress_unique_pair.1 [] "id1" msgVoice 0 7 42 (by decide)⟩,
   ⟨by decide, ingress_unique_pair.2 [] "id1" "id2" msgVoice 0 1 (by decide)⟩⟩

end Voxly
